import Mathlib

/-!
Shallow embedding of `xbmc/games/controllers/windows/GUIConfigurationWizard.cpp`
(the controller-configuration wizard of Kodi): the wizard's session state, the
primitive classifier `MapPrimitive`, the motion tracker (`OnEventFrame`,
`OnMotion`, `OnMotionless`), the abort controller (`Abort`), the run entry
point (`Run`) and the sequencer worker (`Process`), the latter modelled as a
trace of the observable events it performs.
-/

namespace Wizard

/-- `JOYSTICK::PRIMITIVE_TYPE`: the type tag of a raw driver primitive. -/
inductive PRIMITIVE_TYPE
  | UNKNOWN
  | BUTTON
  | HAT
  | SEMIAXIS
deriving DecidableEq, Repr

/-- `JOYSTICK::CDriverPrimitive`: one raw hardware input event, compared by
value (a type tag and an index). -/
structure DriverPrimitive where
  ptype : PRIMITIVE_TYPE
  index : Nat
deriving DecidableEq, Repr

/-- `JOYSTICK::ANALOG_STICK_DIRECTION`. -/
inductive ANALOG_STICK_DIRECTION
  | UNKNOWN
  | UP
  | DOWN
  | LEFT
  | RIGHT
deriving DecidableEq, Repr

/-- `JOYSTICK::FEATURE_TYPE`: the type of a controller feature; the wizard's
switch recognizes `SCALAR` and `ANALOG_STICK`, everything else falls into the
`default` branch. -/
inductive FEATURE_TYPE
  | UNKNOWN
  | SCALAR
  | ANALOG_STICK
  | ACCELEROMETER
deriving DecidableEq, Repr

/-- `GAME::CControllerFeature` as the classifier uses it: a name and a type. -/
structure CControllerFeature where
  name : String
  ftype : FEATURE_TYPE
deriving DecidableEq, Repr

/-- One observable iteration of a feature button's input prompt, modelling the
external `IFeatureButton` collaborator: the direction `GetDirection()` reports
for this iteration, the boolean `PromptForInput` returns, and whether a
concurrent abort set the stop flag while the sequencer was blocked. -/
structure FeatureStep where
  direction : ANALOG_STICK_DIRECTION
  promptOk : Bool
  stopDuring : Bool
deriving DecidableEq, Repr

/-- External `IFeatureButton`: its feature descriptor and the list of prompt
iterations it performs before `IsFinished()` becomes true (the button reports
finished exactly when all steps are consumed). -/
structure IFeatureButton where
  feature : CControllerFeature
  steps : List FeatureStep
deriving DecidableEq, Repr

/-- `#define ESC_KEY_CODE 27` -/
def ESC_KEY_CODE : Nat := 27

/-- `#define POST_MAPPING_WAIT_TIME_MS (5 * 1000)` -/
def POST_MAPPING_WAIT_TIME_MS : Nat := 5 * 1000

/-- A record added to a button map by `AddScalar` / `AddAnalogStick`. -/
inductive Record
  | scalar (featureName : String) (p : DriverPrimitive)
  | analogStick (featureName : String) (dir : ANALOG_STICK_DIRECTION) (p : DriverPrimitive)
deriving DecidableEq, Repr

/-- External `JOYSTICK::IButtonMap`: an identity (the pointer used as the key
of the motion set), a device name, the external ignore policy, and the list of
records accumulated by `AddScalar` / `AddAnalogStick`. -/
structure IButtonMap where
  id : Nat
  deviceName : String
  isIgnored : DriverPrimitive → Bool
  records : List Record

/-- `IButtonMap::AddScalar`. -/
def addScalar (bm : IButtonMap) (name : String) (p : DriverPrimitive) : IButtonMap :=
  { bm with records := bm.records ++ [Record.scalar name p] }

/-- `IButtonMap::AddAnalogStick`. -/
def addAnalogStick (bm : IButtonMap) (name : String) (dir : ANALOG_STICK_DIRECTION)
    (p : DriverPrimitive) : IButtonMap :=
  { bm with records := bm.records ++ [Record.analogStick name dir p] }

/-- The state of `CGUIConfigurationWizard` shared between the sequencer worker
and the input-delivery path: the thread flags (`IsRunning`, `m_bStop`), the
`Run()` parameters, the current button and direction, the claimed-primitive
set `m_history`, the motion set `m_bInMotion` (keyed by button-map identity),
and the two latched events `m_inputEvent` and `m_motionlessEvent`
(`true` = signalled/set, `false` = reset). -/
structure WizardState where
  running : Bool
  stopRequested : Bool
  controllerId : String
  buttons : List IFeatureButton
  currentButton : Option IFeatureButton
  currentDirection : ANALOG_STICK_DIRECTION
  history : Finset DriverPrimitive
  inMotion : Finset Nat
  inputEvent : Bool
  motionlessEvent : Bool
deriving DecidableEq

/-- `CGUIConfigurationWizard::Abort(bWait)`: if the thread is running, set the
stop flag, signal both events, and (when `bWait`) block until the worker has
exited (after which it is no longer running); returns whether it was running. -/
def Abort (bWait : Bool) (s : WizardState) : Bool × WizardState :=
  if s.running then
    let s1 := { s with
      stopRequested := true
      inputEvent := true
      motionlessEvent := true }
    (true, if bWait then { s1 with running := false } else s1)
  else
    (false, s)

/-- `CGUIConfigurationWizard::OnMotion`: reset the motionless event and add the
button map to the motion set. -/
def OnMotion (s : WizardState) (bmId : Nat) : WizardState :=
  { s with
    motionlessEvent := false
    inMotion := insert bmId s.inMotion }

/-- `CGUIConfigurationWizard::OnMotionless`: remove the button map from the
motion set; if the set is now empty, signal the motionless event. -/
def OnMotionless (s : WizardState) (bmId : Nat) : WizardState :=
  let s1 := { s with inMotion := s.inMotion.erase bmId }
  if s1.inMotion = ∅ then { s1 with motionlessEvent := true } else s1

/-- `CGUIConfigurationWizard::OnEventFrame`: if the button map is currently
tracked as moving and the frame reports no motion, transition it to
motionless. -/
def OnEventFrame (s : WizardState) (bmId : Nat) (bMotion : Bool) : WizardState :=
  if bmId ∈ s.inMotion ∧ bMotion = false then OnMotionless s bmId else s

/-- The `switch (feature.Type())` of `MapPrimitive`: scalar features record
the primitive directly, analog-stick features record it against the current
direction, any other type leaves `bHandled` false. -/
def recordFeature (feature : CControllerFeature) (dir : ANALOG_STICK_DIRECTION)
    (bm : IButtonMap) (p : DriverPrimitive) : Bool × IButtonMap :=
  match feature.ftype with
  | FEATURE_TYPE.SCALAR => (true, addScalar bm feature.name p)
  | FEATURE_TYPE.ANALOG_STICK => (true, addAnalogStick bm feature.name dir p)
  | _ => (false, bm)

/-- The result of one `MapPrimitive` call: the returned `bHandled`, the wizard
state after the call, and the button map after the call. -/
structure MapResult where
  handled : Bool
  state : WizardState
  buttonMap : IButtonMap

/-- `CGUIConfigurationWizard::MapPrimitive`: the esc key aborts; a primitive
already in `m_history` is swallowed; an ignored primitive is swallowed;
otherwise the current button and direction are snapshotted and the feature
type dispatched; on a successful record the primitive joins `m_history`,
`OnMotion` is signalled for the device and `m_inputEvent` is set. -/
def MapPrimitive (s : WizardState) (bm : IButtonMap) (p : DriverPrimitive) : MapResult :=
  if p.ptype = PRIMITIVE_TYPE.BUTTON ∧ p.index = ESC_KEY_CODE then
    let r := Abort false s
    ⟨r.1, r.2, bm⟩
  else if p ∈ s.history then
    ⟨true, s, bm⟩
  else if bm.isIgnored p then
    ⟨true, s, bm⟩
  else
    match s.currentButton with
    | none => ⟨false, s, bm⟩
    | some currentButton =>
      let r := recordFeature currentButton.feature s.currentDirection bm p
      if r.1 then
        let s1 := OnMotion { s with history := insert p s.history } bm.id
        ⟨true, { s1 with inputEvent := true }, r.2⟩
      else
        ⟨false, s, r.2⟩

/-- `CGUIConfigurationWizard::InitializeState`: null the current button, reset
the current direction, clear the claimed-primitive history. -/
def InitializeState (s : WizardState) : WizardState :=
  { s with
    currentButton := none
    currentDirection := ANALOG_STICK_DIRECTION.UNKNOWN
    history := ∅ }

/-- The locked block of `CGUIConfigurationWizard::Run`: store the `Run()`
parameters, reset both synchronization events, clear the motion set, and
initialize the state variables. -/
def runResetBlock (s : WizardState) (strControllerId : String)
    (buttons : List IFeatureButton) : WizardState :=
  InitializeState { s with
    controllerId := strControllerId
    buttons := buttons
    inputEvent := false
    motionlessEvent := false
    inMotion := ∅ }

/-- The ordered phases `Run` performs. -/
inductive RunEvent
  | abortOldRun
  | resetSession
  | launchWorker
deriving DecidableEq, Repr

/-- `CGUIConfigurationWizard::Run`: abort any active run synchronously
(`Abort()` with `bWait = true`), reset the session under the lock, then
`Create()` the worker thread (which starts with a fresh stop flag). Returns
the new state and the ordered list of phases performed. -/
def Run (s : WizardState) (strControllerId : String)
    (buttons : List IFeatureButton) : WizardState × List RunEvent :=
  let a := Abort true s
  let s2 := runResetBlock a.2 strControllerId buttons
  let s3 := { s2 with running := true, stopRequested := false }
  (s3, (if a.1 then [RunEvent.abortOldRun] else []) ++
       [RunEvent.resetSession, RunEvent.launchWorker])

/-- The hooks installed by `InstallHooks` / removed by `RemoveHooks`:
the joystick button mapper, the peripherals observer, the keyboard handler
and the mouse handler. -/
inductive Hook
  | buttonMapper
  | observer
  | keyboard
  | mouse
deriving DecidableEq, Repr

/-- Observable events of the sequencer worker `Process`, in the order it
performs them. -/
inductive WEvent
  | installHook (h : Hook)
  | removeHook (h : Hook)
  | lockAcquire
  | lockRelease
  | setCurrent (featureName : String)
  | setDirection (dir : ANALOG_STICK_DIRECTION)
  | promptInput (featureName : String)
  | resetButton (featureName : String)
  | clearSession
  | save (buttonMapId : Nat)
  | settleWait (timeoutMs : Nat)
deriving DecidableEq, Repr

/-- `CGUIConfigurationWizard::InstallHooks`: register the joystick button
mapper and the peripherals observer, register the keyboard handler only when
not emulating, always register the mouse handler. -/
def InstallHooks (bEmulation : Bool) : List WEvent :=
  [WEvent.installHook Hook.buttonMapper, WEvent.installHook Hook.observer] ++
  (if bEmulation then [] else [WEvent.installHook Hook.keyboard]) ++
  [WEvent.installHook Hook.mouse]

/-- `CGUIConfigurationWizard::RemoveHooks`: the exact inverse of
`InstallHooks`, in reverse order. -/
def RemoveHooks (bEmulation : Bool) : List WEvent :=
  [WEvent.removeHook Hook.mouse] ++
  (if bEmulation then [] else [WEvent.removeHook Hook.keyboard]) ++
  [WEvent.removeHook Hook.observer, WEvent.removeHook Hook.buttonMapper]

/-- `CGUIConfigurationWizard::Notify` on `ObservableMessagePeripheralsChanged`:
unregister and immediately re-register the joystick button mapper. -/
def Notify : List WEvent :=
  [WEvent.removeHook Hook.buttonMapper, WEvent.installHook Hook.buttonMapper]

/-- The `while (!button->IsFinished())` loop of `Process` for one feature
button: each iteration publishes the current direction, blocks in
`PromptForInput`, calls `Abort(false)` (setting the stop flag, since the
worker is running) when the prompt fails, then breaks if the stop flag is set
(whether set by the failed prompt or concurrently during the wait). Returns
the stop flag after the loop and the events performed. -/
def innerLoop (featureName : String) : List FeatureStep → Bool × List WEvent
  | [] => (false, [])
  | step :: rest =>
    let evs := [WEvent.setDirection step.direction, WEvent.promptInput featureName]
    let stopNow : Bool := (!step.promptOk) || step.stopDuring
    if stopNow then
      (true, evs)
    else
      let r := innerLoop featureName rest
      (r.1, evs ++ r.2)

/-- The `for (IFeatureButton* button : m_buttons)` loop of `Process`: each
button is made current, its prompt loop is run, the button is reset, and the
loop breaks when the stop flag is set. Returns the events performed and the
final stop flag. -/
def featureLoop : List IFeatureButton → List WEvent × Bool
  | [] => ([], false)
  | b :: rest =>
    let inner := innerLoop b.feature.name b.steps
    let evs := [WEvent.setCurrent b.feature.name] ++ inner.2 ++
               [WEvent.resetButton b.feature.name]
    if inner.1 then
      (evs, true)
    else
      let r := featureLoop rest
      (evs ++ r.1, r.2)

/-- Modelled from the spec: `ButtonMapCallbacks()` (inherited from
`IButtonMapper`, not part of this source file) yields, per the spec, the
distinct button-map targets touched during this run; `Process` invokes
`SaveButtonMap` on each of them. -/
def saveAll (touched : List Nat) : List WEvent :=
  touched.map WEvent.save

/-- `CGUIConfigurationWizard::Process`: install hooks; under the state lock
run the feature loop and then clear the session (`InitializeState`); outside
the lock save every touched button map; if the motion set is non-empty wait a
bounded `POST_MAPPING_WAIT_TIME_MS` for axes to neutralize; remove hooks.
`bInMotionAtEnd` is the emptiness snapshot of `m_bInMotion` taken under the
motion lock after the loop. -/
def Process (bEmulation : Bool) (buttons : List IFeatureButton)
    (touched : List Nat) (bInMotionAtEnd : Bool) : List WEvent :=
  InstallHooks bEmulation ++
  [WEvent.lockAcquire] ++ (featureLoop buttons).1 ++
  [WEvent.clearSession, WEvent.lockRelease] ++
  saveAll touched ++
  (if bInMotionAtEnd then [WEvent.settleWait POST_MAPPING_WAIT_TIME_MS] else []) ++
  RemoveHooks bEmulation

/-- `CEvent::WaitMSec(timeout)`: the wait returns after `timeout`
milliseconds, or as soon as the event is signalled (`signalAfterMs`),
whichever comes first; the result is the time actually spent blocked. -/
def WaitMSec (timeoutMs : Nat) (signalAfterMs : Option Nat) : Nat :=
  match signalAfterMs with
  | none => timeoutMs
  | some d => min d timeoutMs

/-- One delivery from the input-dispatch path: thread the wizard state and the
button map through `MapPrimitive`. -/
def deliver (sb : WizardState × IButtonMap) (p : DriverPrimitive) :
    WizardState × IButtonMap :=
  let r := MapPrimitive sb.1 sb.2 p
  (r.state, r.buttonMap)

/-- A sequence of deliveries during one session. -/
def deliverList (s : WizardState) (bm : IButtonMap)
    (ps : List DriverPrimitive) : WizardState × IButtonMap :=
  ps.foldl deliver (s, bm)

/-- The primitive a record was produced from. -/
def recordPrim : Record → DriverPrimitive
  | Record.scalar _ p => p
  | Record.analogStick _ _ p => p

/-- How many records in `rs` were produced from primitive `p`. -/
def countFor (p : DriverPrimitive) (rs : List Record) : Nat :=
  (rs.filter (fun r => recordPrim r = p)).length

/-- The motion-set/settle-signal consistency invariant of the spec: the
motionless event is in the settled state iff the motion set is empty. -/
def MotionConsistent (s : WizardState) : Prop :=
  s.motionlessEvent = true ↔ s.inMotion = ∅

instance (s : WizardState) : Decidable (MotionConsistent s) :=
  inferInstanceAs (Decidable (s.motionlessEvent = true ↔ s.inMotion = ∅))

/-- Events a hook is installed or removed by. -/
def isHookEvent : WEvent → Bool
  | WEvent.installHook _ => true
  | WEvent.removeHook _ => true
  | _ => false

/-- Events emitted inside the feature loop. -/
def isLoopEvent : WEvent → Bool
  | WEvent.setCurrent _ => true
  | WEvent.setDirection _ => true
  | WEvent.promptInput _ => true
  | WEvent.resetButton _ => true
  | _ => false

/-- `SaveButtonMap` events. -/
def isSave : WEvent → Bool
  | WEvent.save _ => true
  | _ => false

/-- Number of `installHook h` events in a trace. -/
def hookInstalls (h : Hook) (t : List WEvent) : Nat :=
  (t.filter (fun e => e = WEvent.installHook h)).length

/-- Number of `removeHook h` events in a trace. -/
def hookRemoves (h : Hook) (t : List WEvent) : Nat :=
  (t.filter (fun e => e = WEvent.removeHook h)).length

/-! ### Basic lemmas about `Abort` and `MapPrimitive` -/

lemma abort_history (b : Bool) (s : WizardState) : ((Abort b s).2).history = s.history := by
  unfold Abort
  split_ifs <;> rfl

lemma mapPrimitive_cancel (s : WizardState) (bm : IButtonMap) (p : DriverPrimitive)
    (hc : p.ptype = PRIMITIVE_TYPE.BUTTON ∧ p.index = ESC_KEY_CODE) :
    MapPrimitive s bm p = ⟨(Abort false s).1, (Abort false s).2, bm⟩ := by
  unfold MapPrimitive
  rw [if_pos hc]

lemma mapPrimitive_dedup (s : WizardState) (bm : IButtonMap) (p : DriverPrimitive)
    (hnc : ¬(p.ptype = PRIMITIVE_TYPE.BUTTON ∧ p.index = ESC_KEY_CODE))
    (hmem : p ∈ s.history) :
    MapPrimitive s bm p = ⟨true, s, bm⟩ := by
  unfold MapPrimitive
  rw [if_neg hnc, if_pos hmem]

/-- The history after a `MapPrimitive` call: unchanged, or the classified
primitive was inserted — and in the latter case the primitive was not the
cancel input (the cancel branch never records). -/
lemma mapPrimitive_history (s : WizardState) (bm : IButtonMap) (q : DriverPrimitive) :
    (MapPrimitive s bm q).state.history = s.history
    ∨ ((MapPrimitive s bm q).state.history = insert q s.history
        ∧ ¬(q.ptype = PRIMITIVE_TYPE.BUTTON ∧ q.index = ESC_KEY_CODE)) := by
  unfold MapPrimitive
  split_ifs with h1 h2 h3
  · exact Or.inl (abort_history false s)
  · exact Or.inl rfl
  · exact Or.inl rfl
  · cases hcb : s.currentButton with
    | none => exact Or.inl rfl
    | some _ =>
      simp only
      split_ifs with hrec
      · exact Or.inr ⟨rfl, h1⟩
      · exact Or.inl rfl

/-- The state of the wizard right after a successful record of primitive `q`
against the button map with identity `bmId`: the primitive is claimed,
`OnMotion` has run for the device, and the input event is signalled. -/
def recordedState (s : WizardState) (bmId : Nat) (q : DriverPrimitive) : WizardState :=
  { s with
    history := insert q s.history
    motionlessEvent := false
    inMotion := insert bmId s.inMotion
    inputEvent := true }

lemma mapPrimitive_ignored (s : WizardState) (bm : IButtonMap) (q : DriverPrimitive)
    (hnc : ¬(q.ptype = PRIMITIVE_TYPE.BUTTON ∧ q.index = ESC_KEY_CODE))
    (hnm : q ∉ s.history) (hig : bm.isIgnored q = true) :
    MapPrimitive s bm q = ⟨true, s, bm⟩ := by
  unfold MapPrimitive
  rw [if_neg hnc, if_neg hnm, if_pos hig]

lemma mapPrimitive_noButton (s : WizardState) (bm : IButtonMap) (q : DriverPrimitive)
    (hnc : ¬(q.ptype = PRIMITIVE_TYPE.BUTTON ∧ q.index = ESC_KEY_CODE))
    (hnm : q ∉ s.history) (hnig : bm.isIgnored q = false)
    (hcb : s.currentButton = none) :
    MapPrimitive s bm q = ⟨false, s, bm⟩ := by
  unfold MapPrimitive
  rw [if_neg hnc, if_neg hnm, if_neg (by simp [hnig]), hcb]

lemma mapPrimitive_scalar (s : WizardState) (bm : IButtonMap) (q : DriverPrimitive)
    (b : IFeatureButton)
    (hnc : ¬(q.ptype = PRIMITIVE_TYPE.BUTTON ∧ q.index = ESC_KEY_CODE))
    (hnm : q ∉ s.history) (hnig : bm.isIgnored q = false)
    (hcb : s.currentButton = some b) (hft : b.feature.ftype = FEATURE_TYPE.SCALAR) :
    MapPrimitive s bm q =
      ⟨true, recordedState s bm.id q, addScalar bm b.feature.name q⟩ := by
  unfold MapPrimitive
  rw [if_neg hnc, if_neg hnm, if_neg (by simp [hnig]), hcb]
  simp only [recordFeature, hft, OnMotion, recordedState]
  simp [hcb]

lemma mapPrimitive_analog (s : WizardState) (bm : IButtonMap) (q : DriverPrimitive)
    (b : IFeatureButton)
    (hnc : ¬(q.ptype = PRIMITIVE_TYPE.BUTTON ∧ q.index = ESC_KEY_CODE))
    (hnm : q ∉ s.history) (hnig : bm.isIgnored q = false)
    (hcb : s.currentButton = some b)
    (hft : b.feature.ftype = FEATURE_TYPE.ANALOG_STICK) :
    MapPrimitive s bm q =
      ⟨true, recordedState s bm.id q,
        addAnalogStick bm b.feature.name s.currentDirection q⟩ := by
  unfold MapPrimitive
  rw [if_neg hnc, if_neg hnm, if_neg (by simp [hnig]), hcb]
  simp only [recordFeature, hft, OnMotion, recordedState]
  simp [hcb]

lemma mapPrimitive_unrecognized (s : WizardState) (bm : IButtonMap) (q : DriverPrimitive)
    (b : IFeatureButton)
    (hnc : ¬(q.ptype = PRIMITIVE_TYPE.BUTTON ∧ q.index = ESC_KEY_CODE))
    (hnm : q ∉ s.history) (hnig : bm.isIgnored q = false)
    (hcb : s.currentButton = some b)
    (hft1 : b.feature.ftype ≠ FEATURE_TYPE.SCALAR)
    (hft2 : b.feature.ftype ≠ FEATURE_TYPE.ANALOG_STICK) :
    MapPrimitive s bm q = ⟨false, s, bm⟩ := by
  unfold MapPrimitive
  rw [if_neg hnc, if_neg hnm, if_neg (by simp [hnig]), hcb]
  rcases hft : b.feature.ftype with _ | _ | _ | _
  · simp [recordFeature, hft]
  · exact absurd hft hft1
  · exact absurd hft hft2
  · simp [recordFeature, hft]

lemma countFor_append (p : DriverPrimitive) (rs₁ rs₂ : List Record) :
    countFor p (rs₁ ++ rs₂) = countFor p rs₁ + countFor p rs₂ := by
  simp [countFor, List.filter_append]

/-- One delivery preserves the quantity "records already produced from `p`,
plus one pending budget when `p` is still unclaimed": a record from `p` can
only be produced by consuming `p`'s budget (inserting `p` into the history). -/
lemma countFor_step (p q : DriverPrimitive) (s : WizardState) (bm : IButtonMap) :
    countFor p (MapPrimitive s bm q).buttonMap.records
      + (if p ∈ (MapPrimitive s bm q).state.history then 0 else 1)
    ≤ countFor p bm.records + (if p ∈ s.history then 0 else 1) := by
  by_cases h1 : q.ptype = PRIMITIVE_TYPE.BUTTON ∧ q.index = ESC_KEY_CODE
  · rw [mapPrimitive_cancel s bm q h1]
    simp [abort_history]
  by_cases h2 : q ∈ s.history
  · rw [mapPrimitive_dedup s bm q h1 h2]
  by_cases h3 : bm.isIgnored q = true
  · rw [mapPrimitive_ignored s bm q h1 h2 h3]
  have h3' : bm.isIgnored q = false := by
    cases hv : bm.isIgnored q
    · rfl
    · exact absurd hv h3
  cases hcb : s.currentButton with
  | none =>
    rw [mapPrimitive_noButton s bm q h1 h2 h3' hcb]
  | some b =>
    by_cases hsc : b.feature.ftype = FEATURE_TYPE.SCALAR
    · rw [mapPrimitive_scalar s bm q b h1 h2 h3' hcb hsc]
      rcases eq_or_ne p q with hpq | hpq
      · subst hpq
        simp [recordedState, addScalar, countFor_append, countFor, recordPrim, h2]
      · simp [recordedState, addScalar, countFor_append, countFor, recordPrim,
          Finset.mem_insert, hpq, Ne.symm hpq]
    by_cases han : b.feature.ftype = FEATURE_TYPE.ANALOG_STICK
    · rw [mapPrimitive_analog s bm q b h1 h2 h3' hcb han]
      rcases eq_or_ne p q with hpq | hpq
      · subst hpq
        simp [recordedState, addAnalogStick, countFor_append, countFor, recordPrim, h2]
      · simp [recordedState, addAnalogStick, countFor_append, countFor, recordPrim,
          Finset.mem_insert, hpq, Ne.symm hpq]
    rw [mapPrimitive_unrecognized s bm q b h1 h2 h3' hcb hsc han]

lemma countFor_deliverList (p : DriverPrimitive) (ps : List DriverPrimitive)
    (s : WizardState) (bm : IButtonMap) :
    countFor p (deliverList s bm ps).2.records
      + (if p ∈ (deliverList s bm ps).1.history then 0 else 1)
    ≤ countFor p bm.records + (if p ∈ s.history then 0 else 1) := by
  induction ps generalizing s bm with
  | nil => exact le_refl _
  | cons q ps ih =>
    have hstep := countFor_step p q s bm
    have hrest := ih (MapPrimitive s bm q).state (MapPrimitive s bm q).buttonMap
    have hunf : deliverList s bm (q :: ps) =
        deliverList (MapPrimitive s bm q).state (MapPrimitive s bm q).buttonMap ps := rfl
    rw [hunf]
    exact le_trans hrest hstep

/-- Claim C1: a primitive already in the session's claimed set is swallowed by
the classifier — it reports handled and changes neither the wizard state (so
no wake, no motion signal) nor the button map (no record); the cancel
primitive can never enter the claimed set, so the side condition is vacuous in
a session; and over any delivery sequence a primitive not yet claimed yields
at most one record, so delivering the same primitive twice produces exactly
one record (the successful one). -/
theorem claim_C1 :
    (∀ (s : WizardState) (bm : IButtonMap) (p : DriverPrimitive),
        ¬(p.ptype = PRIMITIVE_TYPE.BUTTON ∧ p.index = ESC_KEY_CODE) →
        p ∈ s.history →
        MapPrimitive s bm p = ⟨true, s, bm⟩)
    ∧ (∀ (s : WizardState) (bm : IButtonMap) (p q : DriverPrimitive),
        p.ptype = PRIMITIVE_TYPE.BUTTON → p.index = ESC_KEY_CODE →
        p ∉ s.history → p ∉ (MapPrimitive s bm q).state.history)
    ∧ (∀ (s : WizardState) (bm : IButtonMap) (ps : List DriverPrimitive)
          (p : DriverPrimitive),
        p ∉ s.history →
        countFor p (deliverList s bm ps).2.records ≤ countFor p bm.records + 1) := by
  refine ⟨mapPrimitive_dedup, ?_, ?_⟩
  · intro s bm p q hb hi hnotin
    rcases mapPrimitive_history s bm q with h | ⟨h, hnc⟩
    · rw [h]; exact hnotin
    · rw [h]
      intro hmem
      rcases Finset.mem_insert.mp hmem with hpq | hold
      · exact hnc ⟨hpq ▸ hb, hpq ▸ hi⟩
      · exact hnotin hold
  · intro s bm ps p hnotin
    have h := countFor_deliverList p ps s bm
    rw [if_neg hnotin] at h
    calc countFor p (deliverList s bm ps).2.records
        ≤ countFor p (deliverList s bm ps).2.records
          + (if p ∈ (deliverList s bm ps).1.history then 0 else 1) := Nat.le_add_right _ _
      _ ≤ countFor p bm.records + 1 := h

/-- Witness for C1: in a session whose claimed set holds the hat primitive
with index 3, classifying that primitive again is a no-op reporting handled. -/
theorem claim_C1_witness :
    MapPrimitive
      ⟨true, false, "game.controller.default", [], none,
        ANALOG_STICK_DIRECTION.UNKNOWN, {⟨PRIMITIVE_TYPE.HAT, 3⟩}, ∅, false, false⟩
      ⟨0, "Keyboard", fun _ => false, []⟩
      ⟨PRIMITIVE_TYPE.HAT, 3⟩
    = ⟨true,
        ⟨true, false, "game.controller.default", [], none,
          ANALOG_STICK_DIRECTION.UNKNOWN, {⟨PRIMITIVE_TYPE.HAT, 3⟩}, ∅, false, false⟩,
        ⟨0, "Keyboard", fun _ => false, []⟩⟩ :=
  claim_C1.1
    ⟨true, false, "game.controller.default", [], none,
      ANALOG_STICK_DIRECTION.UNKNOWN, {⟨PRIMITIVE_TYPE.HAT, 3⟩}, ∅, false, false⟩
    ⟨0, "Keyboard", fun _ => false, []⟩
    ⟨PRIMITIVE_TYPE.HAT, 3⟩
    (by decide) (by decide)

lemma abort_fst (b : Bool) (s : WizardState) : (Abort b s).1 = s.running := by
  unfold Abort
  cases hr : s.running <;> simp [hr]

lemma abort_inMotion (b : Bool) (s : WizardState) : ((Abort b s).2).inMotion = s.inMotion := by
  unfold Abort
  split_ifs <;> rfl

lemma abort_stop (s : WizardState) (h : s.running = true) :
    ((Abort false s).2).stopRequested = true := by
  simp [Abort, h]

lemma abort_state_not_running (b : Bool) (s : WizardState) (h : s.running = false) :
    (Abort b s).2 = s := by
  simp [Abort, h]

/-- Exhaustive case analysis of `MapPrimitive`: the cancel branch, the two
swallowed branches, the two unhandled branches, and the two recording
branches. -/
lemma mapPrimitive_branches (s : WizardState) (bm : IButtonMap) (p : DriverPrimitive) :
    (MapPrimitive s bm p = ⟨(Abort false s).1, (Abort false s).2, bm⟩
      ∧ p.ptype = PRIMITIVE_TYPE.BUTTON ∧ p.index = ESC_KEY_CODE)
    ∨ (MapPrimitive s bm p = ⟨true, s, bm⟩
      ∧ ¬(p.ptype = PRIMITIVE_TYPE.BUTTON ∧ p.index = ESC_KEY_CODE)
      ∧ (p ∈ s.history ∨ bm.isIgnored p = true))
    ∨ (MapPrimitive s bm p = ⟨false, s, bm⟩
      ∧ p ∉ s.history ∧ bm.isIgnored p = false)
    ∨ (∃ b, s.currentButton = some b
      ∧ p ∉ s.history ∧ bm.isIgnored p = false
      ∧ ¬(p.ptype = PRIMITIVE_TYPE.BUTTON ∧ p.index = ESC_KEY_CODE)
      ∧ ((b.feature.ftype = FEATURE_TYPE.SCALAR
          ∧ MapPrimitive s bm p =
              ⟨true, recordedState s bm.id p, addScalar bm b.feature.name p⟩)
        ∨ (b.feature.ftype = FEATURE_TYPE.ANALOG_STICK
          ∧ MapPrimitive s bm p =
              ⟨true, recordedState s bm.id p,
                addAnalogStick bm b.feature.name s.currentDirection p⟩))) := by
  by_cases h1 : p.ptype = PRIMITIVE_TYPE.BUTTON ∧ p.index = ESC_KEY_CODE
  · exact Or.inl ⟨mapPrimitive_cancel s bm p h1, h1⟩
  by_cases h2 : p ∈ s.history
  · exact Or.inr (Or.inl ⟨mapPrimitive_dedup s bm p h1 h2, h1, Or.inl h2⟩)
  by_cases h3 : bm.isIgnored p = true
  · exact Or.inr (Or.inl ⟨mapPrimitive_ignored s bm p h1 h2 h3, h1, Or.inr h3⟩)
  have h3' : bm.isIgnored p = false := by
    cases hv : bm.isIgnored p
    · rfl
    · exact absurd hv h3
  cases hcb : s.currentButton with
  | none =>
    exact Or.inr (Or.inr (Or.inl ⟨mapPrimitive_noButton s bm p h1 h2 h3' hcb, h2, h3'⟩))
  | some b =>
    by_cases hsc : b.feature.ftype = FEATURE_TYPE.SCALAR
    · exact Or.inr (Or.inr (Or.inr ⟨b, rfl, h2, h3', h1,
        Or.inl ⟨hsc, mapPrimitive_scalar s bm p b h1 h2 h3' hcb hsc⟩⟩))
    by_cases han : b.feature.ftype = FEATURE_TYPE.ANALOG_STICK
    · exact Or.inr (Or.inr (Or.inr ⟨b, rfl, h2, h3', h1,
        Or.inr ⟨han, mapPrimitive_analog s bm p b h1 h2 h3' hcb han⟩⟩))
    exact Or.inr (Or.inr (Or.inl
      ⟨mapPrimitive_unrecognized s bm p b h1 h2 h3' hcb hsc han, h2, h3'⟩))

/-- The button map after one classification: the ignore policy is untouched,
and every record present afterwards was either already there or was produced
from a primitive the policy does not ignore. -/
lemma mapPrimitive_records_mem (s : WizardState) (bm : IButtonMap) (p : DriverPrimitive) :
    (MapPrimitive s bm p).buttonMap.isIgnored = bm.isIgnored
    ∧ ∀ r, r ∈ (MapPrimitive s bm p).buttonMap.records →
        r ∈ bm.records ∨ bm.isIgnored (recordPrim r) = false := by
  rcases mapPrimitive_branches s bm p with ⟨hmap, _⟩ | ⟨hmap, _⟩ | ⟨hmap, _⟩ |
    ⟨b, _, _, hnig, _, ⟨_, hmap⟩ | ⟨_, hmap⟩⟩
  · rw [hmap]
    exact ⟨rfl, fun r hr => Or.inl hr⟩
  · rw [hmap]
    exact ⟨rfl, fun r hr => Or.inl hr⟩
  · rw [hmap]
    exact ⟨rfl, fun r hr => Or.inl hr⟩
  · rw [hmap]
    refine ⟨rfl, fun r hr => ?_⟩
    rcases List.mem_append.mp hr with hold | hnew
    · exact Or.inl hold
    · rcases List.mem_singleton.mp hnew with rfl
      exact Or.inr (by simpa [recordPrim] using hnig)
  · rw [hmap]
    refine ⟨rfl, fun r hr => ?_⟩
    rcases List.mem_append.mp hr with hold | hnew
    · exact Or.inl hold
    · rcases List.mem_singleton.mp hnew with rfl
      exact Or.inr (by simpa [recordPrim] using hnig)

lemma deliverList_records_mem (ps : List DriverPrimitive) (s : WizardState)
    (bm : IButtonMap) :
    (deliverList s bm ps).2.isIgnored = bm.isIgnored
    ∧ ∀ r, r ∈ (deliverList s bm ps).2.records →
        r ∈ bm.records ∨ bm.isIgnored (recordPrim r) = false := by
  induction ps generalizing s bm with
  | nil => exact ⟨rfl, fun r hr => Or.inl hr⟩
  | cons q ps ih =>
    have hstep := mapPrimitive_records_mem s bm q
    have hrest := ih (MapPrimitive s bm q).state (MapPrimitive s bm q).buttonMap
    have hunf : deliverList s bm (q :: ps) =
        deliverList (MapPrimitive s bm q).state (MapPrimitive s bm q).buttonMap ps := rfl
    rw [hunf]
    refine ⟨hrest.1.trans hstep.1, fun r hr => ?_⟩
    rcases hrest.2 r hr with hmem | hnig
    · rcases hstep.2 r hmem with hmem2 | hnig2
      · exact Or.inl hmem2
      · exact Or.inr hnig2
    · rw [hstep.1] at hnig
      exact Or.inr hnig

/-- Claim C9: during a run, a primitive flagged by the button map's
`IsIgnored` policy is reported handled while neither a record is produced nor
the claimed set modified; and across any delivery sequence, every record ever
produced comes from a primitive the policy does not ignore. -/
theorem claim_C9 :
    (∀ (s : WizardState) (bm : IButtonMap) (p : DriverPrimitive),
        s.running = true → bm.isIgnored p = true →
        (MapPrimitive s bm p).handled = true
        ∧ (MapPrimitive s bm p).buttonMap.records = bm.records
        ∧ (MapPrimitive s bm p).state.history = s.history)
    ∧ (∀ (s : WizardState) (bm : IButtonMap) (ps : List DriverPrimitive) (r : Record),
        r ∈ (deliverList s bm ps).2.records →
        r ∈ bm.records ∨ bm.isIgnored (recordPrim r) = false) := by
  constructor
  · intro s bm p hrun hig
    rcases mapPrimitive_branches s bm p with ⟨hmap, _⟩ | ⟨hmap, _⟩ | ⟨_, _, hnig⟩ |
      ⟨b, _, _, hnig, _, _⟩
    · rw [hmap]
      exact ⟨by rw [abort_fst]; exact hrun, rfl, abort_history false s⟩
    · rw [hmap]
      exact ⟨rfl, rfl, rfl⟩
    · rw [hig] at hnig
      exact absurd hnig (by simp)
    · rw [hig] at hnig
      exact absurd hnig (by simp)
  · intro s bm ps r hr
    exact (deliverList_records_mem ps s bm).2 r hr

/-- Witness for C9: with the ignore-everything policy, a button primitive is
swallowed during a run: handled, no record, claimed set untouched. -/
theorem claim_C9_witness :
    (MapPrimitive
        ⟨true, false, "game.controller.default", [], none,
          ANALOG_STICK_DIRECTION.UNKNOWN, ∅, ∅, false, false⟩
        ⟨0, "Gamepad", fun _ => true, []⟩
        ⟨PRIMITIVE_TYPE.BUTTON, 5⟩).handled = true
    ∧ (MapPrimitive
        ⟨true, false, "game.controller.default", [], none,
          ANALOG_STICK_DIRECTION.UNKNOWN, ∅, ∅, false, false⟩
        ⟨0, "Gamepad", fun _ => true, []⟩
        ⟨PRIMITIVE_TYPE.BUTTON, 5⟩).buttonMap.records = []
    ∧ (MapPrimitive
        ⟨true, false, "game.controller.default", [], none,
          ANALOG_STICK_DIRECTION.UNKNOWN, ∅, ∅, false, false⟩
        ⟨0, "Gamepad", fun _ => true, []⟩
        ⟨PRIMITIVE_TYPE.BUTTON, 5⟩).state.history = ∅ :=
  claim_C9.1
    ⟨true, false, "game.controller.default", [], none,
      ANALOG_STICK_DIRECTION.UNKNOWN, ∅, ∅, false, false⟩
    ⟨0, "Gamepad", fun _ => true, []⟩
    ⟨PRIMITIVE_TYPE.BUTTON, 5⟩
    rfl rfl

/-- Claim C10: only a digital-button primitive with index 27 takes the cancel
branch (aborting without touching the button map or the claimed set, handled
exactly when the wizard was running); any other primitive never requests a
stop, and a hat primitive with index 27 falls through to the normal
dedup/ignore/record classification and is recorded like any other input. -/
theorem claim_C10 :
    (∀ (s : WizardState) (bm : IButtonMap) (p : DriverPrimitive),
        p.ptype = PRIMITIVE_TYPE.BUTTON → p.index = ESC_KEY_CODE →
        (MapPrimitive s bm p).buttonMap.records = bm.records
        ∧ (MapPrimitive s bm p).state.history = s.history
        ∧ (MapPrimitive s bm p).handled = s.running
        ∧ (s.running = true → (MapPrimitive s bm p).state.stopRequested = true))
    ∧ (∀ (s : WizardState) (bm : IButtonMap) (p : DriverPrimitive),
        ¬(p.ptype = PRIMITIVE_TYPE.BUTTON ∧ p.index = ESC_KEY_CODE) →
        (MapPrimitive s bm p).state.stopRequested = s.stopRequested
        ∧ (MapPrimitive s bm p).state.running = s.running)
    ∧ (∀ (s : WizardState) (bm : IButtonMap) (p : DriverPrimitive) (b : IFeatureButton),
        p.ptype ≠ PRIMITIVE_TYPE.BUTTON → p.index = ESC_KEY_CODE →
        p ∉ s.history → bm.isIgnored p = false → s.currentButton = some b →
        b.feature.ftype = FEATURE_TYPE.SCALAR →
        (MapPrimitive s bm p).buttonMap.records
          = bm.records ++ [Record.scalar b.feature.name p]) := by
  refine ⟨?_, ?_, ?_⟩
  · intro s bm p hb hi
    rw [mapPrimitive_cancel s bm p ⟨hb, hi⟩]
    exact ⟨rfl, abort_history false s, abort_fst false s, fun hr => abort_stop s hr⟩
  · intro s bm p hnc
    rcases mapPrimitive_branches s bm p with ⟨_, hc⟩ | ⟨hmap, _⟩ | ⟨hmap, _⟩ |
      ⟨b, _, _, _, _, ⟨_, hmap⟩ | ⟨_, hmap⟩⟩
    · exact absurd hc hnc
    · rw [hmap]; exact ⟨rfl, rfl⟩
    · rw [hmap]; exact ⟨rfl, rfl⟩
    · rw [hmap]; exact ⟨rfl, rfl⟩
    · rw [hmap]; exact ⟨rfl, rfl⟩
  · intro s bm p b hb hi hnm hnig hcb hsc
    have hnc : ¬(p.ptype = PRIMITIVE_TYPE.BUTTON ∧ p.index = ESC_KEY_CODE) :=
      fun hc => hb hc.1
    rw [mapPrimitive_scalar s bm p b hnc hnm hnig hcb hsc]
    rfl

/-- Witness for C10: a hat primitive with index 27 is recorded as a scalar for
the current feature rather than cancelling. -/
theorem claim_C10_witness :
    (MapPrimitive
        ⟨true, false, "game.controller.default", [],
          some ⟨⟨"a", FEATURE_TYPE.SCALAR⟩, []⟩,
          ANALOG_STICK_DIRECTION.UNKNOWN, ∅, ∅, false, false⟩
        ⟨0, "Gamepad", fun _ => false, []⟩
        ⟨PRIMITIVE_TYPE.HAT, 27⟩).buttonMap.records
      = [Record.scalar "a" ⟨PRIMITIVE_TYPE.HAT, 27⟩] :=
  claim_C10.2.2
    ⟨true, false, "game.controller.default", [],
      some ⟨⟨"a", FEATURE_TYPE.SCALAR⟩, []⟩,
      ANALOG_STICK_DIRECTION.UNKNOWN, ∅, ∅, false, false⟩
    ⟨0, "Gamepad", fun _ => false, []⟩
    ⟨PRIMITIVE_TYPE.HAT, 27⟩
    ⟨⟨"a", FEATURE_TYPE.SCALAR⟩, []⟩
    (by decide) rfl (by decide) rfl rfl rfl

/-- Counterexample to C4 as stated: classifying the esc-key primitive while
the wizard runs wakes the blocked sequencer (`m_inputEvent` is set by
`Abort`) although no record is produced, so "the sequencer is woken exactly
when the classification records the primitive" is false at this input. -/
theorem claim_C4_counterexample :
    ¬ (((MapPrimitive
          ⟨true, false, "game.controller.default", [], none,
            ANALOG_STICK_DIRECTION.UNKNOWN, ∅, ∅, false, false⟩
          ⟨0, "Keyboard", fun _ => false, []⟩
          ⟨PRIMITIVE_TYPE.BUTTON, 27⟩).state.inputEvent ≠ false)
        ↔ (MapPrimitive
          ⟨true, false, "game.controller.default", [], none,
            ANALOG_STICK_DIRECTION.UNKNOWN, ∅, ∅, false, false⟩
          ⟨0, "Keyboard", fun _ => false, []⟩
          ⟨PRIMITIVE_TYPE.BUTTON, 27⟩).buttonMap.records ≠ []) := by
  decide

/-- Claim C4 (amended): the claimed-set insert, the motion-tracker signal and
the sequencer wake are committed together exactly when the classification
records the primitive — except that the cancel primitive, while the wizard
runs, additionally wakes the sequencer as part of requesting the abort
without recording anything; when there is no current feature or the feature
type is unrecognized, nothing is mutated and no wake is signalled. -/
theorem claim_C4 :
    ∀ (s : WizardState) (bm : IButtonMap) (p : DriverPrimitive),
      ((MapPrimitive s bm p).buttonMap.records ≠ bm.records →
        (MapPrimitive s bm p).handled = true
        ∧ (MapPrimitive s bm p).state = recordedState s bm.id p
        ∧ p ∉ s.history)
      ∧ ((MapPrimitive s bm p).buttonMap.records = bm.records →
        (MapPrimitive s bm p).state.history = s.history
        ∧ (MapPrimitive s bm p).state.inMotion = s.inMotion
        ∧ ((MapPrimitive s bm p).state.inputEvent = s.inputEvent
            ∨ (p.ptype = PRIMITIVE_TYPE.BUTTON ∧ p.index = ESC_KEY_CODE
                ∧ s.running = true)))
      ∧ (∀ b : IFeatureButton,
          ¬(p.ptype = PRIMITIVE_TYPE.BUTTON ∧ p.index = ESC_KEY_CODE) →
          p ∉ s.history → bm.isIgnored p = false →
          (s.currentButton = none
            ∨ (s.currentButton = some b
                ∧ b.feature.ftype ≠ FEATURE_TYPE.SCALAR
                ∧ b.feature.ftype ≠ FEATURE_TYPE.ANALOG_STICK)) →
          MapPrimitive s bm p = ⟨false, s, bm⟩) := by
  intro s bm p
  refine ⟨?_, ?_, ?_⟩
  · intro hne
    rcases mapPrimitive_branches s bm p with ⟨hmap, _⟩ | ⟨hmap, _⟩ | ⟨hmap, _⟩ |
      ⟨b, _, hnm, _, _, ⟨_, hmap⟩ | ⟨_, hmap⟩⟩
    · rw [hmap] at hne
      exact absurd rfl hne
    · rw [hmap] at hne
      exact absurd rfl hne
    · rw [hmap] at hne
      exact absurd rfl hne
    · rw [hmap]
      exact ⟨rfl, rfl, hnm⟩
    · rw [hmap]
      exact ⟨rfl, rfl, hnm⟩
  · intro heq
    rcases mapPrimitive_branches s bm p with ⟨hmap, hc⟩ | ⟨hmap, _⟩ | ⟨hmap, _⟩ |
      ⟨b, _, _, _, _, ⟨_, hmap⟩ | ⟨_, hmap⟩⟩
    · rw [hmap]
      refine ⟨abort_history false s, abort_inMotion false s, ?_⟩
      cases hr : s.running
      · rw [abort_state_not_running false s hr]
        exact Or.inl rfl
      · exact Or.inr ⟨hc.1, hc.2, rfl⟩
    · rw [hmap]
      exact ⟨rfl, rfl, Or.inl rfl⟩
    · rw [hmap]
      exact ⟨rfl, rfl, Or.inl rfl⟩
    · rw [hmap] at heq
      simp [addScalar] at heq
    · rw [hmap] at heq
      simp [addAnalogStick] at heq
  · intro b hnc hnm hnig hd
    rcases hd with hcb | ⟨hcb, hns, hna⟩
    · exact mapPrimitive_noButton s bm p hnc hnm hnig hcb
    · exact mapPrimitive_unrecognized s bm p b hnc hnm hnig hcb hns hna

/-- Witness for C4 (amended): a fresh button primitive recorded for a scalar
feature commits all three side effects at once. -/
theorem claim_C4_witness :
    (MapPrimitive
        ⟨true, false, "game.controller.default", [],
          some ⟨⟨"a", FEATURE_TYPE.SCALAR⟩, []⟩,
          ANALOG_STICK_DIRECTION.UNKNOWN, ∅, ∅, false, false⟩
        ⟨7, "Gamepad", fun _ => false, []⟩
        ⟨PRIMITIVE_TYPE.BUTTON, 3⟩).handled = true
    ∧ (MapPrimitive
        ⟨true, false, "game.controller.default", [],
          some ⟨⟨"a", FEATURE_TYPE.SCALAR⟩, []⟩,
          ANALOG_STICK_DIRECTION.UNKNOWN, ∅, ∅, false, false⟩
        ⟨7, "Gamepad", fun _ => false, []⟩
        ⟨PRIMITIVE_TYPE.BUTTON, 3⟩).state
      = recordedState
          ⟨true, false, "game.controller.default", [],
            some ⟨⟨"a", FEATURE_TYPE.SCALAR⟩, []⟩,
            ANALOG_STICK_DIRECTION.UNKNOWN, ∅, ∅, false, false⟩
          7 ⟨PRIMITIVE_TYPE.BUTTON, 3⟩
    ∧ (⟨PRIMITIVE_TYPE.BUTTON, 3⟩ : DriverPrimitive) ∉
        (∅ : Finset DriverPrimitive) :=
  (claim_C4
      ⟨true, false, "game.controller.default", [],
        some ⟨⟨"a", FEATURE_TYPE.SCALAR⟩, []⟩,
        ANALOG_STICK_DIRECTION.UNKNOWN, ∅, ∅, false, false⟩
      ⟨7, "Gamepad", fun _ => false, []⟩
      ⟨PRIMITIVE_TYPE.BUTTON, 3⟩).1
    (by decide)

/-- Counterexample to C3 as stated: the run-reset operation leaves the motion
set empty while the settle signal is reset (not settled), so "settled iff
empty" fails right after a run reset. -/
theorem claim_C3_counterexample :
    ¬ MotionConsistent
        (runResetBlock
          ⟨false, false, "", [], none, ANALOG_STICK_DIRECTION.UNKNOWN,
            ∅, ∅, false, true⟩
          "game.controller.default" []) := by
  decide

/-- Claim C3 (amended): the motion-tracker operations keep the settle signal
consistent with the motion set — motion-detected establishes "not settled and
non-empty" outright, and motionless / event-frame preserve the "settled iff
empty" invariant; the run reset instead leaves the signal un-settled with an
empty motion set, and an abort of a running wizard forces the signal settled
regardless of the motion set. -/
theorem claim_C3 :
    (∀ (s : WizardState) (bmId : Nat), MotionConsistent (OnMotion s bmId))
    ∧ (∀ (s : WizardState) (bmId : Nat),
        MotionConsistent s → MotionConsistent (OnMotionless s bmId))
    ∧ (∀ (s : WizardState) (bmId : Nat) (bMotion : Bool),
        MotionConsistent s → MotionConsistent (OnEventFrame s bmId bMotion))
    ∧ (∀ (s : WizardState) (cid : String) (bs : List IFeatureButton),
        (runResetBlock s cid bs).inMotion = ∅
        ∧ (runResetBlock s cid bs).motionlessEvent = false)
    ∧ (∀ s : WizardState, s.running = true →
        ((Abort false s).2).motionlessEvent = true) := by
  have hless : ∀ (s : WizardState) (bmId : Nat),
      MotionConsistent s → MotionConsistent (OnMotionless s bmId) := by
    intro s bmId h
    unfold OnMotionless
    by_cases he : s.inMotion.erase bmId = ∅
    · simp [MotionConsistent, he]
    · have hne : s.inMotion ≠ ∅ := by
        intro h0
        exact he (by rw [h0]; exact Finset.erase_empty bmId)
      have hev : s.motionlessEvent = false := by
        cases hv : s.motionlessEvent
        · rfl
        · exact absurd (h.mp hv) hne
      simp [MotionConsistent, he, hev]
  refine ⟨?_, hless, ?_, ?_, ?_⟩
  · intro s bmId
    simp [MotionConsistent, OnMotion, Finset.insert_ne_empty]
  · intro s bmId bMotion h
    unfold OnEventFrame
    split_ifs with hc
    · exact hless s bmId h
    · exact h
  · intro s cid bs
    exact ⟨rfl, rfl⟩
  · intro s h
    simp [Abort, h]

/-- Witness for C3 (amended): from a consistent state with one device in
motion, a motionless notification empties the set and settles the signal. -/
theorem claim_C3_witness :
    MotionConsistent
      (OnMotionless
        ⟨true, false, "game.controller.default", [], none,
          ANALOG_STICK_DIRECTION.UNKNOWN, ∅, {3}, false, false⟩
        3) :=
  claim_C3.2.1
    ⟨true, false, "game.controller.default", [], none,
      ANALOG_STICK_DIRECTION.UNKNOWN, ∅, {3}, false, false⟩
    3 (by decide)

/-- Claim C8: starting a run first aborts any active run synchronously (the
abort phase precedes the reset, which precedes the worker launch, and the
waited-for abort leaves the old worker not running), and the state the new
worker starts from is fully reset: the new controller id and feature list,
no current button or direction, empty claimed set, empty motion set, both
events reset, running with a fresh stop flag. -/
theorem claim_C8 :
    ∀ (s : WizardState) (cid : String) (bs : List IFeatureButton),
      (s.running = true →
        (Run s cid bs).2 =
          [RunEvent.abortOldRun, RunEvent.resetSession, RunEvent.launchWorker])
      ∧ (s.running = false →
        (Run s cid bs).2 = [RunEvent.resetSession, RunEvent.launchWorker])
      ∧ (Run s cid bs).1 =
          ⟨true, false, cid, bs, none, ANALOG_STICK_DIRECTION.UNKNOWN,
            ∅, ∅, false, false⟩
      ∧ ((Abort true s).2).running = false := by
  intro s cid bs
  refine ⟨?_, ?_, ?_, ?_⟩
  · intro h
    simp [Run, Abort, h]
  · intro h
    simp [Run, Abort, h]
  · rfl
  · unfold Abort
    cases hr : s.running <;> simp [hr]

/-- Witness for C8: restarting over a running wizard performs abort, reset and
launch in that order. -/
theorem claim_C8_witness :
    (Run
      ⟨true, true, "old.controller", [], none, ANALOG_STICK_DIRECTION.UP,
        {⟨PRIMITIVE_TYPE.BUTTON, 3⟩}, {5}, true, true⟩
      "game.controller.default" []).2 =
    [RunEvent.abortOldRun, RunEvent.resetSession, RunEvent.launchWorker] :=
  by
  have h := (claim_C8
    ⟨true, true, "old.controller", [], none, ANALOG_STICK_DIRECTION.UP,
      {⟨PRIMITIVE_TYPE.BUTTON, 3⟩}, {5}, true, true⟩
    "game.controller.default" []).1 rfl
  exact h


/-! ### Trace lemmas for the sequencer worker -/

lemma innerLoop_cons (name : String) (st : FeatureStep) (rest : List FeatureStep) :
    innerLoop name (st :: rest) =
      (if (!st.promptOk) || st.stopDuring then
        (true, [WEvent.setDirection st.direction, WEvent.promptInput name])
      else
        ((innerLoop name rest).1,
          [WEvent.setDirection st.direction, WEvent.promptInput name] ++
            (innerLoop name rest).2)) := rfl

lemma featureLoop_cons (b : IFeatureButton) (rest : List IFeatureButton) :
    featureLoop (b :: rest) =
      (if (innerLoop b.feature.name b.steps).1 then
        ([WEvent.setCurrent b.feature.name] ++ (innerLoop b.feature.name b.steps).2 ++
          [WEvent.resetButton b.feature.name], true)
      else
        ([WEvent.setCurrent b.feature.name] ++ (innerLoop b.feature.name b.steps).2 ++
          [WEvent.resetButton b.feature.name] ++ (featureLoop rest).1,
          (featureLoop rest).2)) := rfl

lemma innerLoop_events (name : String) (steps : List FeatureStep) :
    ∀ e ∈ (innerLoop name steps).2, isLoopEvent e = true := by
  induction steps with
  | nil =>
    intro e he
    simp [innerLoop] at he
  | cons st rest ih =>
    intro e he
    rw [innerLoop_cons] at he
    by_cases h : ((!st.promptOk) || st.stopDuring) = true
    · rw [if_pos h] at he
      rcases List.mem_cons.mp he with rfl | he2
      · rfl
      · rcases List.mem_singleton.mp he2 with rfl
        rfl
    · rw [if_neg h] at he
      rcases List.mem_append.mp he with he1 | he2
      · rcases List.mem_cons.mp he1 with rfl | he3
        · rfl
        · rcases List.mem_singleton.mp he3 with rfl
          rfl
      · exact ih e he2

lemma featureLoop_events (bs : List IFeatureButton) :
    ∀ e ∈ (featureLoop bs).1, isLoopEvent e = true := by
  induction bs with
  | nil =>
    intro e he
    simp [featureLoop] at he
  | cons b rest ih =>
    intro e he
    rw [featureLoop_cons] at he
    have hone : ∀ x ∈ [WEvent.setCurrent b.feature.name] ++
        (innerLoop b.feature.name b.steps).2 ++ [WEvent.resetButton b.feature.name],
        isLoopEvent x = true := by
      intro x hx
      rcases List.mem_append.mp hx with hx1 | hx2
      · rcases List.mem_append.mp hx1 with hx3 | hx4
        · rcases List.mem_singleton.mp hx3 with rfl
          rfl
        · exact innerLoop_events b.feature.name b.steps x hx4
      · rcases List.mem_singleton.mp hx2 with rfl
        rfl
    by_cases h : (innerLoop b.feature.name b.steps).1 = true
    · rw [if_pos h] at he
      exact hone e he
    · rw [if_neg h] at he
      rcases List.mem_append.mp he with he1 | he2
      · exact hone e he1
      · exact ih e he2

lemma loopEvent_shape (e : WEvent) (h : isLoopEvent e = true) :
    isHookEvent e = false ∧ isSave e = false ∧ e ≠ WEvent.clearSession
    ∧ e ≠ WEvent.lockRelease ∧ e ≠ WEvent.lockAcquire
    ∧ (∀ d, e ≠ WEvent.settleWait d) ∧ (∀ i, e ≠ WEvent.save i) := by
  cases e <;> simp_all [isLoopEvent, isHookEvent, isSave]

lemma hookEvent_shape (e : WEvent) (h : isHookEvent e = true) :
    isSave e = false ∧ isLoopEvent e = false ∧ e ≠ WEvent.clearSession
    ∧ e ≠ WEvent.lockRelease ∧ e ≠ WEvent.lockAcquire
    ∧ (∀ d, e ≠ WEvent.settleWait d) ∧ (∀ i, e ≠ WEvent.save i) := by
  cases e <;> simp_all [isLoopEvent, isHookEvent, isSave]

lemma mem_installHooks (e : WEvent) (em : Bool) (h : e ∈ InstallHooks em) :
    isHookEvent e = true := by
  cases em
  · simp [InstallHooks] at h
    rcases h with rfl | rfl | rfl | rfl <;> rfl
  · simp [InstallHooks] at h
    rcases h with rfl | rfl | rfl <;> rfl

lemma mem_removeHooks (e : WEvent) (em : Bool) (h : e ∈ RemoveHooks em) :
    isHookEvent e = true := by
  cases em
  · simp [RemoveHooks] at h
    rcases h with rfl | rfl | rfl | rfl <;> rfl
  · simp [RemoveHooks] at h
    rcases h with rfl | rfl | rfl <;> rfl

/-- The middle section of a `Process` trace (everything strictly between
`InstallHooks` and `RemoveHooks`). -/
def processMid (bs : List IFeatureButton) (touched : List Nat) (motion : Bool) :
    List WEvent :=
  [WEvent.lockAcquire] ++ (featureLoop bs).1 ++
  [WEvent.clearSession, WEvent.lockRelease] ++ saveAll touched ++
  (if motion then [WEvent.settleWait POST_MAPPING_WAIT_TIME_MS] else [])

lemma process_split (em : Bool) (bs : List IFeatureButton) (touched : List Nat)
    (motion : Bool) :
    Process em bs touched motion =
      InstallHooks em ++ processMid bs touched motion ++ RemoveHooks em := by
  simp [Process, processMid, List.append_assoc]

lemma mem_processMid (e : WEvent) (bs : List IFeatureButton) (touched : List Nat)
    (motion : Bool) :
    e ∈ processMid bs touched motion ↔
      (e = WEvent.lockAcquire ∨ e ∈ (featureLoop bs).1 ∨ e = WEvent.clearSession
        ∨ e = WEvent.lockRelease ∨ (∃ i ∈ touched, e = WEvent.save i)
        ∨ (motion = true ∧ e = WEvent.settleWait POST_MAPPING_WAIT_TIME_MS)) := by
  unfold processMid saveAll
  cases motion <;> simp [List.mem_append, List.mem_map, or_assoc, eq_comm]

lemma processMid_no_hook (bs : List IFeatureButton) (touched : List Nat)
    (motion : Bool) :
    ∀ e ∈ processMid bs touched motion, isHookEvent e = false := by
  intro e he
  rcases (mem_processMid e bs touched motion).mp he with rfl | h | rfl | rfl |
    ⟨i, _, rfl⟩ | ⟨_, rfl⟩
  · rfl
  · exact (loopEvent_shape e (featureLoop_events bs e h)).1
  · rfl
  · rfl
  · rfl
  · rfl

lemma hookInstalls_append (h : Hook) (t1 t2 : List WEvent) :
    hookInstalls h (t1 ++ t2) = hookInstalls h t1 + hookInstalls h t2 := by
  simp [hookInstalls, List.filter_append]

lemma hookRemoves_append (h : Hook) (t1 t2 : List WEvent) :
    hookRemoves h (t1 ++ t2) = hookRemoves h t1 + hookRemoves h t2 := by
  simp [hookRemoves, List.filter_append]

lemma hookInstalls_zero (h : Hook) (t : List WEvent)
    (hn : ∀ e ∈ t, isHookEvent e = false) : hookInstalls h t = 0 := by
  unfold hookInstalls
  rw [List.length_eq_zero, List.filter_eq_nil_iff]
  intro e he hcontra
  have he2 : e = WEvent.installHook h := by simpa using hcontra
  have hhook := hn e he
  rw [he2] at hhook
  simp [isHookEvent] at hhook

lemma hookRemoves_zero (h : Hook) (t : List WEvent)
    (hn : ∀ e ∈ t, isHookEvent e = false) : hookRemoves h t = 0 := by
  unfold hookRemoves
  rw [List.length_eq_zero, List.filter_eq_nil_iff]
  intro e he hcontra
  have he2 : e = WEvent.removeHook h := by simpa using hcontra
  have hhook := hn e he
  rw [he2] at hhook
  simp [isHookEvent] at hhook

/-- Claim C5: every `Process` run — whatever the feature outcomes, abort
deliveries, emulation flag or motion state — begins with `InstallHooks`,
ends with `RemoveHooks`, touches no hook in between, and balances every
install with a matching remove per hook kind (button mapper, observer,
mouse, and keyboard exactly when not emulating); the topology notification
also re-registers the button mapper without changing the balance. -/
theorem claim_C5 :
    ∀ (em : Bool) (bs : List IFeatureButton) (touched : List Nat) (motion : Bool),
      (∀ h : Hook, hookInstalls h (Process em bs touched motion)
          = hookRemoves h (Process em bs touched motion))
      ∧ (∃ mid, Process em bs touched motion
            = InstallHooks em ++ mid ++ RemoveHooks em
          ∧ ∀ e ∈ mid, isHookEvent e = false)
      ∧ hookInstalls Hook.buttonMapper (Process em bs touched motion) = 1
      ∧ hookInstalls Hook.observer (Process em bs touched motion) = 1
      ∧ hookInstalls Hook.keyboard (Process em bs touched motion)
          = (if em then 0 else 1)
      ∧ hookInstalls Hook.mouse (Process em bs touched motion) = 1
      ∧ (∀ h : Hook, hookInstalls h Notify = hookRemoves h Notify) := by
  intro em bs touched motion
  have hmid := processMid_no_hook bs touched motion
  have hsplit := process_split em bs touched motion
  have hcount : ∀ h : Hook,
      hookInstalls h (Process em bs touched motion)
        = hookInstalls h (InstallHooks em) + hookInstalls h (RemoveHooks em) := by
    intro h
    rw [hsplit, hookInstalls_append, hookInstalls_append,
      hookInstalls_zero h _ hmid]
    omega
  have hcountr : ∀ h : Hook,
      hookRemoves h (Process em bs touched motion)
        = hookRemoves h (InstallHooks em) + hookRemoves h (RemoveHooks em) := by
    intro h
    rw [hsplit, hookRemoves_append, hookRemoves_append,
      hookRemoves_zero h _ hmid]
    omega
  refine ⟨?_, ⟨processMid bs touched motion, hsplit, hmid⟩, ?_, ?_, ?_, ?_, ?_⟩
  · intro h
    rw [hcount h, hcountr h]
    cases em <;> cases h <;> decide
  · rw [hcount Hook.buttonMapper]
    cases em <;> decide
  · rw [hcount Hook.observer]
    cases em <;> decide
  · rw [hcount Hook.keyboard]
    cases em <;> decide
  · rw [hcount Hook.mouse]
    cases em <;> decide
  · intro h
    cases h <;> decide

/-- Claim C6: after the feature loop the session is cleared while the state
lock is still held (the clear immediately precedes the lock release, with the
acquire before it and no release earlier), every `SaveButtonMap` call happens
after the lock release, the saves are one per touched button-map target (the
touched set modelled from the spec as what `ButtonMapCallbacks()` yields),
and no save event occurs anywhere else in the run. -/
theorem claim_C6 :
    ∀ (em : Bool) (bs : List IFeatureButton) (touched : List Nat) (motion : Bool),
      ∃ pre post,
        Process em bs touched motion =
          pre ++ [WEvent.clearSession, WEvent.lockRelease] ++ saveAll touched ++ post
        ∧ WEvent.lockAcquire ∈ pre
        ∧ (∀ e ∈ pre, isSave e = false ∧ e ≠ WEvent.clearSession
            ∧ e ≠ WEvent.lockRelease)
        ∧ (∀ e ∈ post, isSave e = false)
        ∧ (∀ i : Nat, WEvent.save i ∈ Process em bs touched motion ↔ i ∈ touched) := by
  intro em bs touched motion
  refine ⟨InstallHooks em ++ [WEvent.lockAcquire] ++ (featureLoop bs).1,
    (if motion then [WEvent.settleWait POST_MAPPING_WAIT_TIME_MS] else [])
      ++ RemoveHooks em, ?_, ?_, ?_, ?_, ?_⟩
  · simp [Process, saveAll, List.append_assoc]
  · simp
  · intro e he
    rcases List.mem_append.mp he with h1 | h2
    · rcases List.mem_append.mp h1 with h3 | h4
      · have hk := hookEvent_shape e (mem_installHooks e em h3)
        exact ⟨hk.1, hk.2.2.1, hk.2.2.2.1⟩
      · rcases List.mem_singleton.mp h4 with rfl
        exact ⟨rfl, by simp, by simp⟩
    · have hl := loopEvent_shape e (featureLoop_events bs e h2)
      exact ⟨hl.2.1, hl.2.2.1, hl.2.2.2.1⟩
  · intro e he
    rcases List.mem_append.mp he with h1 | h2
    · by_cases hm : motion = true
      · rw [if_pos hm] at h1
        rcases List.mem_singleton.mp h1 with rfl
        rfl
      · rw [if_neg hm] at h1
        simp at h1
    · have hk := hookEvent_shape e (mem_removeHooks e em h2)
      exact hk.1
  · intro i
    constructor
    · intro hmem
      rw [process_split em bs touched motion] at hmem
      rcases List.mem_append.mp hmem with h1 | h2
      · rcases List.mem_append.mp h1 with h3 | h4
        · have hk := hookEvent_shape _ (mem_installHooks _ em h3)
          exact absurd rfl (hk.2.2.2.2.2.2 i)
        · rcases (mem_processMid _ bs touched motion).mp h4 with h | h | h | h |
            ⟨j, hj, hje⟩ | ⟨_, h⟩
          · simp at h
          · have hl := loopEvent_shape _ (featureLoop_events bs _ h)
            exact absurd rfl (hl.2.2.2.2.2.2 i)
          · simp at h
          · simp at h
          · have : i = j := by
              injection hje
            rw [this]
            exact hj
          · simp at h
      · have hk := hookEvent_shape _ (mem_removeHooks _ em h2)
        exact absurd rfl (hk.2.2.2.2.2.2 i)
    · intro hi
      rw [process_split em bs touched motion]
      refine List.mem_append.mpr (Or.inl (List.mem_append.mpr (Or.inr ?_)))
      exact (mem_processMid _ bs touched motion).mpr
        (Or.inr (Or.inr (Or.inr (Or.inr (Or.inl ⟨i, hi, rfl⟩)))))

/-- Claim C7: the settle wait happens exactly when the motion set is
non-empty when the feature loop ends, always with the fixed
`POST_MAPPING_WAIT_TIME_MS` = 5000 ms timeout; and the bounded wait itself
returns after at most the timeout, or as soon as the settle signal fires,
whichever comes first — so the run terminates even if no motionless event
ever arrives. -/
theorem claim_C7 :
    ∀ (em : Bool) (bs : List IFeatureButton) (touched : List Nat) (motion : Bool),
      (motion = false → ∀ d, WEvent.settleWait d ∉ Process em bs touched motion)
      ∧ (motion = true →
          WEvent.settleWait POST_MAPPING_WAIT_TIME_MS ∈ Process em bs touched motion)
      ∧ (∀ d, WEvent.settleWait d ∈ Process em bs touched motion →
          d = POST_MAPPING_WAIT_TIME_MS)
      ∧ POST_MAPPING_WAIT_TIME_MS = 5000
      ∧ (∀ sig, WaitMSec POST_MAPPING_WAIT_TIME_MS sig ≤ POST_MAPPING_WAIT_TIME_MS)
      ∧ (∀ d, WaitMSec POST_MAPPING_WAIT_TIME_MS (some d)
          = min d POST_MAPPING_WAIT_TIME_MS) := by
  intro em bs touched motion
  have hmem : ∀ d, WEvent.settleWait d ∈ Process em bs touched motion →
      motion = true ∧ d = POST_MAPPING_WAIT_TIME_MS := by
    intro d hmemd
    rw [process_split em bs touched motion] at hmemd
    rcases List.mem_append.mp hmemd with h1 | h2
    · rcases List.mem_append.mp h1 with h3 | h4
      · have hk := hookEvent_shape _ (mem_installHooks _ em h3)
        exact absurd rfl (hk.2.2.2.2.2.1 d)
      · rcases (mem_processMid _ bs touched motion).mp h4 with h | h | h | h |
          ⟨j, _, hje⟩ | ⟨hm, h⟩
        · simp at h
        · have hl := loopEvent_shape _ (featureLoop_events bs _ h)
          exact absurd rfl (hl.2.2.2.2.2.1 d)
        · simp at h
        · simp at h
        · simp at hje
        · have : d = POST_MAPPING_WAIT_TIME_MS := by
            injection h
          exact ⟨hm, this⟩
    · have hk := hookEvent_shape _ (mem_removeHooks _ em h2)
      exact absurd rfl (hk.2.2.2.2.2.1 d)
  refine ⟨?_, ?_, ?_, rfl, ?_, ?_⟩
  · intro hm d hcontra
    rcases hmem d hcontra with ⟨hm2, _⟩
    rw [hm] at hm2
    exact absurd hm2 (by simp)
  · intro hm
    rw [process_split em bs touched motion]
    refine List.mem_append.mpr (Or.inl (List.mem_append.mpr (Or.inr ?_)))
    exact (mem_processMid _ bs touched motion).mpr
      (Or.inr (Or.inr (Or.inr (Or.inr (Or.inr ⟨hm, rfl⟩)))))
  · intro d hd
    exact (hmem d hd).2
  · intro sig
    cases sig with
    | none => exact le_refl _
    | some d => exact min_le_right d _
  · intro d
    rfl

/-- Witness for C7: a run ending with a device still in motion performs the
bounded 5000 ms settle wait. -/
theorem claim_C7_witness :
    WEvent.settleWait POST_MAPPING_WAIT_TIME_MS ∈ Process false [] [] true :=
  (claim_C7 false [] [] true).2.1 rfl

/-- Witness for C5: the keyboard hook is installed exactly once in a
non-emulation run. -/
theorem claim_C5_witness :
    hookInstalls Hook.keyboard (Process false [] [] false) = 1 :=
  (claim_C5 false [] [] false).2.2.2.2.1

/-- Witness for C6: a run that touched button-map target 4 saves it. -/
theorem claim_C6_witness :
    WEvent.save 4 ∈ Process false [] [4] false := by
  obtain ⟨pre, post, _, _, _, _, hiff⟩ := claim_C6 false [] [4] false
  exact (hiff 4).mpr (by decide)

/-- Counterexample to C2 as stated: in a run of two features where the first
feature's `PromptForInput` fails structurally, the stop flag ends set and the
second feature is never made current nor prompted — the whole session stops
rather than continuing as if only the first feature had been abandoned. -/
theorem claim_C2_counterexample :
    (featureLoop
      [⟨⟨"a", FEATURE_TYPE.SCALAR⟩, [⟨ANALOG_STICK_DIRECTION.UNKNOWN, false, false⟩]⟩,
       ⟨⟨"b", FEATURE_TYPE.SCALAR⟩, [⟨ANALOG_STICK_DIRECTION.UNKNOWN, true, false⟩]⟩]).2
      = true
    ∧ WEvent.setCurrent "b" ∉
        (featureLoop
          [⟨⟨"a", FEATURE_TYPE.SCALAR⟩,
              [⟨ANALOG_STICK_DIRECTION.UNKNOWN, false, false⟩]⟩,
           ⟨⟨"b", FEATURE_TYPE.SCALAR⟩,
              [⟨ANALOG_STICK_DIRECTION.UNKNOWN, true, false⟩]⟩]).1
    ∧ WEvent.promptInput "b" ∉
        (featureLoop
          [⟨⟨"a", FEATURE_TYPE.SCALAR⟩,
              [⟨ANALOG_STICK_DIRECTION.UNKNOWN, false, false⟩]⟩,
           ⟨⟨"b", FEATURE_TYPE.SCALAR⟩,
              [⟨ANALOG_STICK_DIRECTION.UNKNOWN, true, false⟩]⟩]).1 := by
  decide

/-- Claim C2 (amended): a `false` return from `PromptForInput` is treated as
a non-fatal abort request for the whole run, not only the current feature:
the stop flag is set, the failed feature's wait ends and that feature is
still reset, no later feature is made current or prompted, and the run still
exits cleanly through the normal teardown (session clear inside the trace,
hooks removed at its end). -/
theorem claim_C2 :
    ∀ (em : Bool) (b : IFeatureButton) (st : FeatureStep)
      (rest : List FeatureStep) (brest : List IFeatureButton)
      (touched : List Nat) (motion : Bool),
      b.steps = st :: rest → st.promptOk = false →
      (featureLoop (b :: brest)).2 = true
      ∧ (featureLoop (b :: brest)).1 =
          [WEvent.setCurrent b.feature.name, WEvent.setDirection st.direction,
           WEvent.promptInput b.feature.name, WEvent.resetButton b.feature.name]
      ∧ (∃ mid, Process em (b :: brest) touched motion =
          InstallHooks em ++ mid ++ RemoveHooks em ∧ WEvent.clearSession ∈ mid) := by
  intro em b st rest brest touched motion hsteps hfail
  have hinner : innerLoop b.feature.name b.steps =
      (true, [WEvent.setDirection st.direction,
              WEvent.promptInput b.feature.name]) := by
    rw [hsteps, innerLoop_cons]
    simp [hfail]
  have hloop : featureLoop (b :: brest) =
      ([WEvent.setCurrent b.feature.name, WEvent.setDirection st.direction,
        WEvent.promptInput b.feature.name, WEvent.resetButton b.feature.name],
       true) := by
    rw [featureLoop_cons, hinner]
    simp
  refine ⟨by rw [hloop], by rw [hloop], ?_⟩
  exact ⟨processMid (b :: brest) touched motion,
    process_split em (b :: brest) touched motion,
    (mem_processMid _ _ touched motion).mpr (Or.inr (Or.inr (Or.inl rfl)))⟩

/-- Witness for C2 (amended): the two-feature run with a failing first prompt
stops with exactly the first feature's events. -/
theorem claim_C2_witness :
    (featureLoop
      [⟨⟨"x", FEATURE_TYPE.SCALAR⟩, [⟨ANALOG_STICK_DIRECTION.UP, false, false⟩]⟩,
       ⟨⟨"y", FEATURE_TYPE.SCALAR⟩, [⟨ANALOG_STICK_DIRECTION.UP, true, false⟩]⟩]).2
      = true
    ∧ (featureLoop
        [⟨⟨"x", FEATURE_TYPE.SCALAR⟩, [⟨ANALOG_STICK_DIRECTION.UP, false, false⟩]⟩,
         ⟨⟨"y", FEATURE_TYPE.SCALAR⟩, [⟨ANALOG_STICK_DIRECTION.UP, true, false⟩]⟩]).1
      = [WEvent.setCurrent "x", WEvent.setDirection ANALOG_STICK_DIRECTION.UP,
         WEvent.promptInput "x", WEvent.resetButton "x"]
    ∧ (∃ mid, Process true
        [⟨⟨"x", FEATURE_TYPE.SCALAR⟩, [⟨ANALOG_STICK_DIRECTION.UP, false, false⟩]⟩,
         ⟨⟨"y", FEATURE_TYPE.SCALAR⟩, [⟨ANALOG_STICK_DIRECTION.UP, true, false⟩]⟩]
        [] false =
        InstallHooks true ++ mid ++ RemoveHooks true ∧ WEvent.clearSession ∈ mid) :=
  claim_C2 true
    ⟨⟨"x", FEATURE_TYPE.SCALAR⟩, [⟨ANALOG_STICK_DIRECTION.UP, false, false⟩]⟩
    ⟨ANALOG_STICK_DIRECTION.UP, false, false⟩ []
    [⟨⟨"y", FEATURE_TYPE.SCALAR⟩, [⟨ANALOG_STICK_DIRECTION.UP, true, false⟩]⟩]
    [] false rfl rfl

end Wizard
